import Mathlib

/-!
Verification of the ring buffer module (src/ring_buffer.c, V3.0.0) against its
natural-language specification.

Shallow embedding conventions:
* `uint32_t` values are `Nat` with an explicit `% U32` (`U32 = 2 ^ 32`) wherever
  the C arithmetic can wrap (index increments, byte-offset products).
* `atomic_size_t count` is a `Nat`; the C code only ever subtracts from it under
  a non-zero guard, so `size_t` underflow is unreachable and plain `Nat`
  subtraction is faithful there.
* Byte memory (`uint8_t *`) is a total function `Nat → Nat` from byte offsets to
  byte values; `ring_buffer_memcpy` is embedded as the loop it is, one byte per
  step.  Pointer arguments that carry data (`p_item`) are such functions; the
  instance pointer is `Option RingBuffer` exactly where a NULL instance matters
  to a claim (`ring_buffer_is_init`, `ring_buffer_init`, the accessors), and a
  plain `RingBuffer` for the data-path operations, whose claims all concern a
  non-NULL instance.
* The `int32_t` index of `ring_buffer_get_by_index` is `Int`; the C cast
  `(int32_t)size` in `ring_buffer_check_index` is embedded by `int32OfUint32`
  (two's-complement reinterpretation, the behavior of the gcc/arm toolchain the
  module documents).
-/

/-- 2^32, the modulus of `uint32_t` arithmetic. -/
abbrev U32 : Nat := 4294967296

/-- Statuses of `ring_buffer_status_t` (ring_buffer.h). -/
inductive ring_buffer_status where
  | eRING_BUFFER_OK
  | eRING_BUFFER_ERROR
  | eRING_BUFFER_ERROR_INIT
  | eRING_BUFFER_ERROR_MEM
  | eRING_BUFFER_ERROR_INST
  | eRING_BUFFER_FULL
  | eRING_BUFFER_EMPTY
  deriving DecidableEq, Repr

open ring_buffer_status

/-- Numeric value of each enumerator, as assigned in ring_buffer.h. -/
def statusCode : ring_buffer_status → Nat
  | eRING_BUFFER_OK => 0
  | eRING_BUFFER_ERROR => 1
  | eRING_BUFFER_ERROR_INIT => 2
  | eRING_BUFFER_ERROR_MEM => 4
  | eRING_BUFFER_ERROR_INST => 8
  | eRING_BUFFER_FULL => 16
  | eRING_BUFFER_EMPTY => 32

/-- The `ring_buffer_t` structure.  `p_data` is the byte store, `name` the
debug label (`none` = NULL). -/
@[ext]
structure RingBuffer where
  p_data : Nat → Nat
  head : Nat
  tail : Nat
  size_of_buffer : Nat
  size_of_item : Nat
  name : Option Nat
  override : Bool
  is_init : Bool
  count : Nat

/-- The `ring_buffer_attr_t` structure; `p_mem = none` requests dynamic
allocation. -/
structure RingBufferAttr where
  name : Option Nat
  p_mem : Option (Nat → Nat)
  item_size : Nat
  override : Bool

/-- `ring_buffer_memcpy`: the byte-copy loop
`for offset in [0, size): dst[dst_off + offset] = src[src_off + offset]`.
Source and destination never alias in this module (one is always the caller's
item buffer), so the functional result is exact. -/
def ring_buffer_memcpy (p_dst : Nat → Nat) (dst_off : Nat) (p_src : Nat → Nat)
    (src_off : Nat) : Nat → (Nat → Nat)
  | 0 => p_dst
  | n + 1 => fun a =>
      if a = dst_off + n then p_src (src_off + n)
      else ring_buffer_memcpy p_dst dst_off p_src src_off n a

/-- `ring_buffer_wrap_index`: single-subtraction wrap of `idx` into
`[0, size)`; the C comparison is `idx > size - 1U` on `uint32_t`. -/
def ring_buffer_wrap_index (idx size : Nat) : Nat :=
  if size - 1 < idx then idx - size else idx

/-- `ring_buffer_increment_index`: `idx + inc` in `uint32_t` arithmetic,
then wrapped. -/
def ring_buffer_increment_index (idx size inc : Nat) : Nat :=
  ring_buffer_wrap_index ((idx + inc) % U32) size

/-- Reinterpretation of a `uint32_t` bit pattern as `int32_t`
(two's complement), for the C cast `(int32_t)size`. -/
def int32OfUint32 (n : Nat) : Int :=
  if n < 2147483648 then (n : Int) else (n : Int) - 4294967296

/-- `ring_buffer_parse_index`: non-negative requests are used directly,
negative requests resolve to `(size + (uint32_t)idx_req) + idx_cur` in
`uint32_t` arithmetic; both are then wrapped. -/
def ring_buffer_parse_index (idx_req : Int) (idx_cur size : Nat) : Nat :=
  let buf_idx : Nat :=
    if 0 ≤ idx_req then idx_req.toNat
    else ((size + (idx_req % (4294967296 : Int)).toNat) + idx_cur) % U32
  ring_buffer_wrap_index buf_idx size

/-- `ring_buffer_check_index`: valid iff non-negative and `< (int32_t)size`,
or negative with `abs(idx_req) <= size` (the `abs` result is promoted to
`uint32_t` for the comparison). -/
def ring_buffer_check_index (idx_req : Int) (size : Nat) : Bool :=
  (decide (0 ≤ idx_req) && decide (idx_req < int32OfUint32 size)) ||
  (decide (idx_req < 0) && decide ((-idx_req).toNat ≤ size))

/-- `ring_buffer_incr_count`, returning the value the function leaves in
`count`.  In override mode the C code computes
`max_count = size_of_buffer - count` and then STORES
`min(count_arg, max_count)` (it does not add it); without override it does
`atomic_fetch_add(count, count_arg)`.  The `size_t` subtraction cannot
underflow in any reachable state (the code's own comment: count never
exceeds the buffer size). -/
def ring_buffer_incr_count (b : RingBuffer) (count : Nat) : Nat :=
  if b.override then
    let max_count := b.size_of_buffer - b.count
    if count ≤ max_count then count else max_count
  else
    b.count + count

/-- `ring_buffer_add_single_to_buf`: copy one item to the slot at `head`,
update `count` via `ring_buffer_incr_count`, advance `head` by one. -/
def ring_buffer_add_single_to_buf (b : RingBuffer) (p_item : Nat → Nat) :
    RingBuffer :=
  { b with
    p_data := ring_buffer_memcpy b.p_data ((b.head * b.size_of_item) % U32)
      p_item 0 b.size_of_item
    count := ring_buffer_incr_count b 1
    head := ring_buffer_increment_index b.head b.size_of_buffer 1 }

/-- `ring_buffer_add_many_to_buf`: copy `size` items starting at `head`,
split into two linear copies when the run crosses the end of storage;
update `count`, advance `head` by `size`.  All byte-size products are
`uint32_t`. -/
def ring_buffer_add_many_to_buf (b : RingBuffer) (p_item : Nat → Nat)
    (size : Nat) : RingBuffer :=
  let items_till_end := b.size_of_buffer - b.head
  let d :=
    if items_till_end < size then
      let sizeof_items_till_end := (b.size_of_item * items_till_end) % U32
      let sizeof_items_from_start := ((size - items_till_end) * b.size_of_item) % U32
      let d1 := ring_buffer_memcpy b.p_data ((b.head * b.size_of_item) % U32)
        p_item 0 sizeof_items_till_end
      ring_buffer_memcpy d1 0 p_item sizeof_items_till_end sizeof_items_from_start
    else
      ring_buffer_memcpy b.p_data ((b.head * b.size_of_item) % U32)
        p_item 0 ((b.size_of_item * size) % U32)
  { b with
    p_data := d
    count := ring_buffer_incr_count b size
    head := ring_buffer_increment_index b.head b.size_of_buffer size }

/-- `ring_buffer_get_single_from_buf`: copy the item at `tail` into the
caller's buffer, decrement `count` (`atomic_fetch_sub`, guarded non-zero by
the caller), advance `tail` by one. -/
def ring_buffer_get_single_from_buf (b : RingBuffer) (p_item : Nat → Nat) :
    RingBuffer × (Nat → Nat) :=
  ({ b with
     count := b.count - 1
     tail := ring_buffer_increment_index b.tail b.size_of_buffer 1 },
   ring_buffer_memcpy p_item 0 b.p_data ((b.tail * b.size_of_item) % U32)
     b.size_of_item)

/-- `ring_buffer_get_many_from_buf`: copy `size` items starting at `tail`
(split at the storage boundary), decrement `count` by `size`, advance `tail`
by `size`. -/
def ring_buffer_get_many_from_buf (b : RingBuffer) (p_item : Nat → Nat)
    (size : Nat) : RingBuffer × (Nat → Nat) :=
  let items_till_end := b.size_of_buffer - b.tail
  let out :=
    if items_till_end < size then
      let sizeof_items_till_end := (b.size_of_item * items_till_end) % U32
      let sizeof_items_from_start := ((size - items_till_end) * b.size_of_item) % U32
      let d1 := ring_buffer_memcpy p_item 0 b.p_data
        ((b.tail * b.size_of_item) % U32) sizeof_items_till_end
      ring_buffer_memcpy d1 sizeof_items_till_end b.p_data 0 sizeof_items_from_start
    else
      ring_buffer_memcpy p_item 0 b.p_data ((b.tail * b.size_of_item) % U32)
        ((b.size_of_item * size) % U32)
  ({ b with
     count := b.count - size
     tail := ring_buffer_increment_index b.tail b.size_of_buffer size },
   out)

/-- `ring_buffer_clear_mem`: zero-fill the `size_of_buffer * size_of_item`
bytes of storage (the product is `uint32_t`).  The C function always returns
`eRING_BUFFER_OK`. -/
def ring_buffer_clear_mem (b : RingBuffer) : RingBuffer :=
  let size_of_mem := (b.size_of_buffer * b.size_of_item) % U32
  { b with p_data := fun a => if a < size_of_mem then 0 else b.p_data a }

/-- `ring_buffer_get_taken`: number of occupied slots; plain `uint32_t`
return, 0 when the instance is NULL or not yet constructed. -/
def ring_buffer_get_taken : Option RingBuffer → Nat
  | some b => if b.is_init then b.count else 0
  | none => 0

/-- `ring_buffer_get_size`: configured slot capacity; 0 when the instance is
NULL or not yet constructed. -/
def ring_buffer_get_size : Option RingBuffer → Nat
  | some b => if b.is_init then b.size_of_buffer else 0
  | none => 0

/-- `ring_buffer_get_free = get_size - get_taken`; 0 when the instance is
NULL or not yet constructed. -/
def ring_buffer_get_free : Option RingBuffer → Nat
  | some b =>
      if b.is_init then ring_buffer_get_size (some b) - ring_buffer_get_taken (some b)
      else 0
  | none => 0

/-- `ring_buffer_get_item_size`: item size in bytes; 0 when the instance is
NULL or not yet constructed. -/
def ring_buffer_get_item_size : Option RingBuffer → Nat
  | some b => if b.is_init then b.size_of_item else 0
  | none => 0

/-- `ring_buffer_is_full`: `count == size_of_buffer`; false when the
instance is NULL or not yet constructed. -/
def ring_buffer_is_full : Option RingBuffer → Bool
  | some b => if b.is_init then decide (b.count = b.size_of_buffer) else false
  | none => false

/-- `ring_buffer_is_empty`: `count == 0`; false when the instance is NULL or
not yet constructed. -/
def ring_buffer_is_empty : Option RingBuffer → Bool
  | some b => if b.is_init then decide (b.count = 0) else false
  | none => false

/-- `ring_buffer_get_name`: the debug label; NULL (`none`) when the instance
is NULL or not yet constructed. -/
def ring_buffer_get_name : Option RingBuffer → Option Nat
  | some b => if b.is_init then b.name else none
  | none => none

/-- `ring_buffer_is_init`: returns `buf_inst->is_init` for a non-NULL
instance; for a NULL instance the C function returns the enumerator
`eRING_BUFFER_ERROR_INST` through its `bool` return type, which the
integer-to-bool conversion turns into `true` (nonzero). -/
def ring_buffer_is_init : Option RingBuffer → Bool
  | some b => b.is_init
  | none => decide (statusCode eRING_BUFFER_ERROR_INST ≠ 0)

/-- `ring_buffer_add`: single-item insert.  When the buffer is full
(`size_of_buffer == count`) and override is on, the item is written anyway
and `tail` is pushed forward by one; full without override returns
`eRING_BUFFER_FULL`.  The NULL-instance and NULL-item branches
(`eRING_BUFFER_ERROR_INST` / `eRING_BUFFER_ERROR`) concern pointers the
embedding represents as always present. -/
def ring_buffer_add (b : RingBuffer) (p_item : Nat → Nat) :
    ring_buffer_status × RingBuffer :=
  if b.is_init then
    if b.size_of_buffer = b.count then
      if b.override then
        let b1 := ring_buffer_add_single_to_buf b p_item
        (eRING_BUFFER_OK,
         { b1 with tail := ring_buffer_increment_index b1.tail b1.size_of_buffer 1 })
      else
        (eRING_BUFFER_FULL, b)
    else
      (eRING_BUFFER_OK, ring_buffer_add_single_to_buf b p_item)
  else
    (eRING_BUFFER_ERROR_INIT, b)

/-- `ring_buffer_add_multi`: bulk insert of `size` items.  If `size` fits
the free space the items are copied; otherwise with override on they are
copied anyway and `tail` is pushed forward by `size`; otherwise the request
is rejected with `eRING_BUFFER_ERROR` and the buffer is unchanged.  There is
no `size <= capacity` check anywhere on this path. -/
def ring_buffer_add_multi (b : RingBuffer) (p_item : Nat → Nat) (size : Nat) :
    ring_buffer_status × RingBuffer :=
  if b.is_init then
    if size ≤ ring_buffer_get_free (some b) then
      (eRING_BUFFER_OK, ring_buffer_add_many_to_buf b p_item size)
    else
      if b.override then
        let b1 := ring_buffer_add_many_to_buf b p_item size
        (eRING_BUFFER_OK,
         { b1 with tail := ring_buffer_increment_index b1.tail b1.size_of_buffer size })
      else
        (eRING_BUFFER_ERROR, b)
  else
    (eRING_BUFFER_ERROR_INIT, b)

/-- `ring_buffer_get`: FIFO removal of the oldest item; `eRING_BUFFER_EMPTY`
when `count == 0`, with the caller's buffer untouched. -/
def ring_buffer_get (b : RingBuffer) (p_item : Nat → Nat) :
    ring_buffer_status × RingBuffer × (Nat → Nat) :=
  if b.is_init then
    if b.count = 0 then
      (eRING_BUFFER_EMPTY, b, p_item)
    else
      let r := ring_buffer_get_single_from_buf b p_item
      (eRING_BUFFER_OK, r.1, r.2)
  else
    (eRING_BUFFER_ERROR_INIT, b, p_item)

/-- `ring_buffer_get_multi`: bulk FIFO removal; `eRING_BUFFER_EMPTY` when
`count == 0`, `eRING_BUFFER_ERROR` when more items are requested than taken,
all-or-nothing. -/
def ring_buffer_get_multi (b : RingBuffer) (p_item : Nat → Nat) (size : Nat) :
    ring_buffer_status × RingBuffer × (Nat → Nat) :=
  if b.is_init then
    if b.count = 0 then
      (eRING_BUFFER_EMPTY, b, p_item)
    else
      if size ≤ ring_buffer_get_taken (some b) then
        let r := ring_buffer_get_many_from_buf b p_item size
        (eRING_BUFFER_OK, r.1, r.2)
      else
        (eRING_BUFFER_ERROR, b, p_item)
  else
    (eRING_BUFFER_ERROR_INIT, b, p_item)

/-- `ring_buffer_get_by_index`: non-destructive read at a signed index; the
index is range-checked by `ring_buffer_check_index`, resolved by
`ring_buffer_parse_index` relative to `tail`, and the item bytes are copied
out.  `head`, `tail` and `count` are not touched; occupancy is never
consulted. -/
def ring_buffer_get_by_index (b : RingBuffer) (p_item : Nat → Nat) (idx : Int) :
    ring_buffer_status × RingBuffer × (Nat → Nat) :=
  if b.is_init then
    if ring_buffer_check_index idx b.size_of_buffer then
      let buf_idx := ring_buffer_parse_index idx b.tail b.size_of_buffer
      (eRING_BUFFER_OK, b,
       ring_buffer_memcpy p_item 0 b.p_data ((buf_idx * b.size_of_item) % U32)
         b.size_of_item)
    else
      (eRING_BUFFER_ERROR, b, p_item)
  else
    (eRING_BUFFER_ERROR_INIT, b, p_item)

/-- `ring_buffer_reset`: zero head, tail and count and clear the storage. -/
def ring_buffer_reset (b : RingBuffer) : ring_buffer_status × RingBuffer :=
  if b.is_init then
    (eRING_BUFFER_OK, ring_buffer_clear_mem { b with head := 0, tail := 0, count := 0 })
  else
    (eRING_BUFFER_ERROR_INIT, b)

/-- `ring_buffer_default_setup`: item size 1, dynamic allocation (`mem` is
the malloc result, `none` = allocation failure), then clear. -/
def ring_buffer_default_setup (b : RingBuffer) (mem : Option (Nat → Nat)) :
    ring_buffer_status × RingBuffer :=
  let b1 := { b with size_of_item := 1 }
  match mem with
  | some f => (eRING_BUFFER_OK, ring_buffer_clear_mem { b1 with p_data := f })
  | none => (eRING_BUFFER_ERROR_MEM, b1)

/-- `ring_buffer_custom_setup`: attributes are stored; caller-owned storage
is borrowed uncleaned, otherwise `size * item_size` bytes are allocated
(`mem`) and cleared. -/
def ring_buffer_custom_setup (b : RingBuffer) (p_attr : RingBufferAttr)
    (mem : Option (Nat → Nat)) : ring_buffer_status × RingBuffer :=
  let b1 := { b with
    name := p_attr.name
    size_of_item := p_attr.item_size
    override := p_attr.override }
  match p_attr.p_mem with
  | some f => (eRING_BUFFER_OK, { b1 with p_data := f })
  | none =>
      match mem with
      | some f => (eRING_BUFFER_OK, ring_buffer_clear_mem { b1 with p_data := f })
      | none => (eRING_BUFFER_ERROR_MEM, b1)

/-- `ring_buffer_init`: `inst` is the value of `*p_ring_buffer` (`none` =
NULL).  A non-NULL value is treated as an already-constructed instance and
rejected with `eRING_BUFFER_ERROR_INIT` untouched.  Otherwise the instance
struct is calloc-ed (zero-filled; `instAllocOK = false` models calloc
failure) and set up; on setup success `is_init` is set. -/
def ring_buffer_init (inst : Option RingBuffer) (size : Nat)
    (p_attr : Option RingBufferAttr) (mem : Option (Nat → Nat))
    (instAllocOK : Bool) : ring_buffer_status × Option RingBuffer :=
  match inst with
  | some b => (eRING_BUFFER_ERROR_INIT, some b)
  | none =>
      if instAllocOK then
        let b0 : RingBuffer :=
          { p_data := fun _ => 0, head := 0, tail := 0, size_of_buffer := size,
            size_of_item := 0, name := none, override := false, is_init := false,
            count := 0 }
        let r := match p_attr with
          | none => ring_buffer_default_setup b0 mem
          | some attr => ring_buffer_custom_setup b0 attr mem
        if r.1 = eRING_BUFFER_OK then
          (eRING_BUFFER_OK, some { r.2 with is_init := true })
        else
          (r.1, some r.2)
      else
        (eRING_BUFFER_ERROR_MEM, none)

/-- `ring_buffer_init_static`: requires a non-NULL instance, non-NULL
attributes and caller-supplied storage; then sets up the instance
unconditionally (there is no already-constructed check) and returns OK. -/
def ring_buffer_init_static (inst : Option RingBuffer) (size : Nat)
    (p_attr : Option RingBufferAttr) : ring_buffer_status × Option RingBuffer :=
  match inst, p_attr with
  | some b, some attr =>
      match attr.p_mem with
      | some f =>
          (eRING_BUFFER_OK, some
            { b with
              size_of_buffer := size, head := 0, tail := 0, count := 0,
              name := attr.name, size_of_item := attr.item_size,
              override := attr.override, p_data := f, is_init := true })
      | none => (eRING_BUFFER_ERROR_INST, some b)
  | some b, none => (eRING_BUFFER_ERROR_INST, some b)
  | none, _ => (eRING_BUFFER_ERROR_INST, none)

/-- The post-construction state of a buffer of `cap` slots of `item_size`
bytes: zeroed storage, `head = tail = count = 0`, `is_init` set (see
`ring_buffer_init_mkBuf` below relating this to `ring_buffer_init`). -/
def mkBuf (cap item_size : Nat) (ovr : Bool) : RingBuffer :=
  { p_data := fun _ => 0, head := 0, tail := 0, size_of_buffer := cap,
    size_of_item := item_size, name := none, override := ovr, is_init := true,
    count := 0 }

/-- An all-zero byte source, used as the pristine caller output buffer. -/
def zf : Nat → Nat := fun _ => 0


/-- Uninitialized instance used by the C8 theorems: allocated but
construction never succeeded (`is_init = false`). -/
def uninitBuf : RingBuffer := { mkBuf 2 1 false with is_init := false }

/-- Attributes with caller-supplied storage, used by the C6 theorems. -/
def staticAttr : RingBufferAttr :=
  { name := none, p_mem := some (fun _ => 9), item_size := 1, override := false }

/-- An already-constructed instance with visible progress (one item added),
used to show `ring_buffer_init_static` wipes it. -/
def busyBuf : RingBuffer := (ring_buffer_add (mkBuf 2 1 false) (fun _ => 7)).2

/-- Sequence of operations used by the C2 invariant claim. -/
inductive BufOp where
  | op_add (p_item : Nat → Nat)
  | op_add_multi (p_item : Nat → Nat) (n : Nat)
  | op_get
  | op_get_multi (n : Nat)
  | op_reset

/-- State reached after one API call (outputs discarded; they do not affect
the buffer state). -/
def bufStep (b : RingBuffer) : BufOp → RingBuffer
  | .op_add p => (ring_buffer_add b p).2
  | .op_add_multi p n => (ring_buffer_add_multi b p n).2
  | .op_get => (ring_buffer_get b zf).2.1
  | .op_get_multi n => (ring_buffer_get_multi b zf n).2.1
  | .op_reset => (ring_buffer_reset b).2

/-- State after a whole operation sequence. -/
def runOps (b : RingBuffer) : List BufOp → RingBuffer
  | [] => b
  | op :: rest => runOps (bufStep b op) rest

/-- The request-size side condition of claim C2: `add_multi` requests stay
within the capacity (larger override requests are the subject of C3). -/
def BufOpOK (cap : Nat) : BufOp → Prop
  | .op_add_multi _ n => n ≤ cap
  | _ => True

/-- Every operation of the sequence satisfies `BufOpOK`. -/
def BufOpsOK (cap : Nat) : List BufOp → Prop
  | [] => True
  | op :: rest => BufOpOK cap op ∧ BufOpsOK cap rest

/-- The data-model invariants of the spec: `0 ≤ count ≤ capacity` (the lower
bound is inherent to `Nat`) and `head`, `tail` in `[0, capacity)`. -/
def BufInv (b : RingBuffer) : Prop :=
  b.count ≤ b.size_of_buffer ∧ b.head < b.size_of_buffer ∧ b.tail < b.size_of_buffer

/-- k successive `ring_buffer_add` calls; the j-th call (0-based) passes the
item occupying bytes `[j*s, (j+1)*s)` of `src`. -/
def addSeq (src : Nat → Nat) (s : Nat) (b : RingBuffer) : Nat → RingBuffer
  | 0 => b
  | k + 1 => (ring_buffer_add (addSeq src s b k) (fun a => src (k * s + a))).2

/-- k successive FIFO `ring_buffer_get` calls (state component only). -/
def getSeq (b : RingBuffer) : Nat → RingBuffer
  | 0 => b
  | k + 1 => (ring_buffer_get (getSeq b k) zf).2.1

/-- Pointwise description of `ring_buffer_memcpy`: bytes inside the copied
window come from the source, all others are left as they were. -/
theorem ring_buffer_memcpy_apply (p_dst p_src : Nat → Nat)
    (dst_off src_off len a : Nat) :
    ring_buffer_memcpy p_dst dst_off p_src src_off len a =
      if dst_off ≤ a ∧ a < dst_off + len then p_src (src_off + (a - dst_off))
      else p_dst a := by
  induction len with
  | zero =>
      simp only [ring_buffer_memcpy]
      rw [if_neg (by omega)]
  | succ n ih =>
      simp only [ring_buffer_memcpy]
      by_cases h : a = dst_off + n
      · subst h
        rw [if_pos rfl, if_pos (by omega)]
        congr 1
        omega
      · rw [if_neg h, ih]
        by_cases h2 : dst_off ≤ a ∧ a < dst_off + n
        · rw [if_pos h2, if_pos ⟨h2.1, by omega⟩]
        · rw [if_neg h2, if_neg (by omega)]

/-- Indices already inside the buffer are left unchanged by the wrap. -/
theorem wrap_index_eq_of_lt {idx size : Nat} (h : idx < size) :
    ring_buffer_wrap_index idx size = idx := by
  unfold ring_buffer_wrap_index
  rw [if_neg (by omega)]

/-- The single-subtraction branch of the wrap. -/
theorem wrap_index_eq_sub {idx size : Nat} (h0 : 0 < size) (h : size ≤ idx) :
    ring_buffer_wrap_index idx size = idx - size := by
  unfold ring_buffer_wrap_index
  rw [if_pos (by omega)]

/-- When the `uint32_t` addition cannot wrap, the increment is just wrap of
the plain sum. -/
theorem increment_index_eq {idx size inc : Nat} (h : idx + inc < U32) :
    ring_buffer_increment_index idx size inc =
      ring_buffer_wrap_index (idx + inc) size := by
  unfold ring_buffer_increment_index
  rw [Nat.mod_eq_of_lt h]

/-- For an in-range index advanced by at most the capacity, the increment is
exactly addition modulo the capacity. -/
theorem increment_index_eq_mod {idx size inc : Nat} (hidx : idx < size)
    (hinc : inc ≤ size) (h : idx + inc < U32) :
    ring_buffer_increment_index idx size inc = (idx + inc) % size := by
  rw [increment_index_eq h]
  unfold ring_buffer_wrap_index
  rcases Nat.lt_or_ge (idx + inc) size with h2 | h2
  · rw [if_neg (by omega), Nat.mod_eq_of_lt h2]
  · rw [if_pos (by omega), Nat.mod_eq_sub_mod h2, Nat.mod_eq_of_lt (by omega)]

/-- Advancing an in-range index by at most the capacity of a `uint32_t`-sized
buffer lands back in `[0, size)`, even when the `uint32_t` addition wraps. -/
theorem increment_index_lt {idx size inc : Nat} (hidx : idx < size)
    (hinc : inc ≤ size) (hsz : size < U32) :
    ring_buffer_increment_index idx size inc < size := by
  unfold ring_buffer_increment_index ring_buffer_wrap_index
  rcases Nat.lt_or_ge (idx + inc) U32 with h | h
  · rw [Nat.mod_eq_of_lt h]
    split <;> omega
  · have h2 : (idx + inc) % U32 = idx + inc - U32 := by
      rw [Nat.mod_eq_sub_mod h, Nat.mod_eq_of_lt (by omega)]
    rw [h2]
    split <;> omega

/-- C1: the spec scenario (capacity 3, override on, `add(1)`, `add(2)`,
`add(3)`, `add(4)`, then `get`) does not behave as the spec states.  Because
`ring_buffer_incr_count` in override mode stores `min(arg, size - count)`
into `count` instead of accumulating, the occupancy is still 1 after the
second and third add, `add(4)` therefore takes the not-full path (overwriting
slot 0 without pushing `tail`), and the subsequent `get` returns 4, not 2,
with the occupancy reporting 1, not a full buffer of 3. -/
theorem C1_override_scenario_code_bug :
    (let b0 := mkBuf 3 1 true
     let r1 := ring_buffer_add b0 (fun _ => 1)
     let r2 := ring_buffer_add r1.2 (fun _ => 2)
     let r3 := ring_buffer_add r2.2 (fun _ => 3)
     let r4 := ring_buffer_add r3.2 (fun _ => 4)
     let g := ring_buffer_get r4.2 zf
     r1.1 = eRING_BUFFER_OK ∧ r2.1 = eRING_BUFFER_OK ∧
       r3.1 = eRING_BUFFER_OK ∧ r4.1 = eRING_BUFFER_OK ∧
       r2.2.count = 1 ∧ r3.2.count = 1 ∧
       ring_buffer_get_taken (some r4.2) = 1 ∧
       g.1 = eRING_BUFFER_OK ∧ g.2.2 0 = 4 ∧ g.2.2 0 ≠ 2) := by
  decide

/-- C3: on a capacity-3 override buffer, `ring_buffer_add_multi` with 7 items
is not rejected: it returns OK, writes past the end of the 3-byte storage
(the second segment copy covers bytes `[0, 4)`), and leaves `head = tail = 4`,
outside `[0, capacity)` -- the code has no `size <= capacity` guard on the
override path. -/
theorem C3_no_capacity_guard_code_bug :
    (let r := ring_buffer_add_multi (mkBuf 3 1 true) (fun a => a + 1) 7
     r.1 = eRING_BUFFER_OK ∧ r.1 ≠ eRING_BUFFER_ERROR ∧
       r.2.head = 4 ∧ r.2.tail = 4 ∧ ¬ r.2.head < r.2.size_of_buffer ∧
       r.2.count = 3) := by
  decide

/-- C4 counterexample: with capacity `c = 2`, `m = c = 2` (allowed by the
claim's `0 < m <= c`), item size 1 and items 1,2,3,4, the bulk add leaves
`tail = 2`, outside the slot range, so the first subsequent `get` reads the
out-of-bounds byte 2 of a 2-byte storage and returns 0 instead of the claimed
item 3 (`v_m`). -/
theorem C4_counterexample :
    (let r := ring_buffer_add_multi (mkBuf 2 1 true) (fun a => a + 1) 4
     let g := ring_buffer_get r.2 zf
     r.1 = eRING_BUFFER_OK ∧ r.2.count = 2 ∧ r.2.tail = 2 ∧
       g.1 = eRING_BUFFER_OK ∧ g.2.2 0 = 0 ∧ g.2.2 0 ≠ 3) := by
  decide

/-- C5 counterexample: capacity 2, one item `v0 = 5` added (`n = 1 <= 2`),
yet `get_by_index(-1)` resolves relative to `tail` (slot `capacity - 1`,
never written, still zero-filled) and returns 0, not `v(n-1) = 5`. -/
theorem C5_counterexample :
    (let b1 := (ring_buffer_add (mkBuf 2 1 false) (fun _ => 5)).2
     let gi := ring_buffer_get_by_index b1 zf (-1)
     gi.1 = eRING_BUFFER_OK ∧ gi.2.2 0 = 0 ∧ gi.2.2 0 ≠ 5) := by
  decide

/-- C6 counterexample: `ring_buffer_init_static` invoked on an
already-constructed instance (`is_init = true`, one item inside) does not
fail with `eRING_BUFFER_ERROR_INIT`; it returns OK and re-setups the
instance, wiping head and count. -/
theorem C6_counterexample :
    (let r := ring_buffer_init_static (some busyBuf) 2 (some staticAttr)
     busyBuf.is_init = true ∧ busyBuf.head = 1 ∧ busyBuf.count = 1 ∧
       r.1 = eRING_BUFFER_OK ∧ r.1 ≠ eRING_BUFFER_ERROR_INIT ∧
       r.2.map (fun b => (b.head, b.count, b.is_init)) = some (0, 0, true)) := by
  decide

/-- C7 counterexample: in the spec scenario (capacity 4, item size 1,
override off) two free slots remain after the `get`, so the fifth add
returns OK, not `eRING_BUFFER_FULL`, and `get_by_index(-1)` afterwards
returns 5 (the last successfully added value), not 4. -/
theorem C7_counterexample :
    (let r1 := ring_buffer_add (mkBuf 4 1 false) (fun _ => 1)
     let r2 := ring_buffer_add r1.2 (fun _ => 2)
     let r3 := ring_buffer_add r2.2 (fun _ => 3)
     let g1 := ring_buffer_get r3.2 zf
     let r4 := ring_buffer_add g1.2.1 (fun _ => 4)
     let r5 := ring_buffer_add r4.2 (fun _ => 5)
     let gi := ring_buffer_get_by_index r5.2 zf (-1)
     r5.1 = eRING_BUFFER_OK ∧ r5.1 ≠ eRING_BUFFER_FULL ∧
       gi.2.2 0 = 5 ∧ gi.2.2 0 ≠ 4) := by
  decide

/-- C7 amended: capacity 4, item size 1, override off; `add(1)`, `add(2)`,
`add(3)` leave occupancy 3; `get()` returns 1 leaving occupancy 2; `add(4)`
and `add(5)` BOTH succeed (two free slots existed); the buffer is then full,
a sixth add returns `eRING_BUFFER_FULL`, and `get_by_index(-1)` returns 5,
the last successfully added value. -/
theorem C7_amended_scenario :
    (let r1 := ring_buffer_add (mkBuf 4 1 false) (fun _ => 1)
     let r2 := ring_buffer_add r1.2 (fun _ => 2)
     let r3 := ring_buffer_add r2.2 (fun _ => 3)
     let g1 := ring_buffer_get r3.2 zf
     let r4 := ring_buffer_add g1.2.1 (fun _ => 4)
     let r5 := ring_buffer_add r4.2 (fun _ => 5)
     let r6 := ring_buffer_add r5.2 (fun _ => 6)
     let gi := ring_buffer_get_by_index r5.2 zf (-1)
     ring_buffer_get_taken (some r3.2) = 3 ∧
       g1.1 = eRING_BUFFER_OK ∧ g1.2.2 0 = 1 ∧
       ring_buffer_get_taken (some g1.2.1) = 2 ∧
       r4.1 = eRING_BUFFER_OK ∧ r5.1 = eRING_BUFFER_OK ∧
       ring_buffer_get_taken (some r5.2) = 4 ∧
       r6.1 = eRING_BUFFER_FULL ∧
       gi.1 = eRING_BUFFER_OK ∧ gi.2.2 0 = 5) := by
  decide

/-- C9: `ring_buffer_is_init` on a NULL instance returns the enumerator
`eRING_BUFFER_ERROR_INST` (numeric value 8) through its `bool` return type;
the nonzero value converts to `true`, the same observation an initialized
instance produces at this interface. -/
theorem C9_is_init_null_truthy :
    ring_buffer_is_init none = true ∧
      statusCode eRING_BUFFER_ERROR_INST = 8 ∧
      ring_buffer_is_init (some (mkBuf 3 1 false)) = true := by
  decide

/-- C10 counterexample: a buffer constructed by `ring_buffer_init` with
capacity `2^31` (item size 1, count 0).  Index 0 lies in
`[-capacity, capacity)`, yet `ring_buffer_get_by_index` returns
`eRING_BUFFER_ERROR`, because `ring_buffer_check_index` compares against
`(int32_t)size`, which reinterprets `2^31` as a negative value. -/
theorem C10_counterexample :
    (let r := ring_buffer_init none 2147483648 none (some (fun _ => 0)) true
     r.1 = eRING_BUFFER_OK ∧
       r.2.map (fun b => b.is_init) = some true ∧
       r.2.map (fun b => b.count) = some 0 ∧
       r.2.map (fun b => (ring_buffer_get_by_index b zf 0).1) =
         some eRING_BUFFER_ERROR) := by
  decide

/-- C8 counterexample: on an instance whose construction never succeeded,
the accessors do not fail with an initialization-error status -- their plain
`uint32_t`/`bool` return types carry no status at all.  `get_taken` returns
0, exactly what a legitimately constructed empty buffer returns, and
`is_empty` returns `false` even though nothing was ever stored. -/
theorem C8_counterexample :
    uninitBuf.is_init = false ∧
      ring_buffer_get_taken (some uninitBuf) = 0 ∧
      ring_buffer_is_empty (some uninitBuf) = false ∧
      ring_buffer_get_taken (some (mkBuf 2 1 false)) = 0 ∧
      ring_buffer_is_empty (some (mkBuf 2 1 false)) = true := by
  decide

/-- C8 amended: the V3 accessors have plain value return types with no
status channel.  Before construction succeeds they return the neutral
defaults 0 / `false` / NULL; on a constructed instance each is a pure read
of the corresponding field (`free = size - taken`, `full = (count = size)`,
`empty = (count = 0)`), and none of them modifies the instance (in this
embedding they are functions of the state, and the C bodies only perform
atomic loads / field reads). -/
theorem C8_amended_accessors (b : RingBuffer) :
    (b.is_init = false →
      ring_buffer_get_taken (some b) = 0 ∧
      ring_buffer_get_free (some b) = 0 ∧
      ring_buffer_get_size (some b) = 0 ∧
      ring_buffer_get_item_size (some b) = 0 ∧
      ring_buffer_is_full (some b) = false ∧
      ring_buffer_is_empty (some b) = false ∧
      ring_buffer_get_name (some b) = none) ∧
    (b.is_init = true →
      ring_buffer_get_taken (some b) = b.count ∧
      ring_buffer_get_free (some b) = b.size_of_buffer - b.count ∧
      ring_buffer_get_size (some b) = b.size_of_buffer ∧
      ring_buffer_get_item_size (some b) = b.size_of_item ∧
      ring_buffer_is_full (some b) = decide (b.count = b.size_of_buffer) ∧
      ring_buffer_is_empty (some b) = decide (b.count = 0) ∧
      ring_buffer_get_name (some b) = b.name) := by
  constructor <;> intro h <;>
    simp [ring_buffer_get_taken, ring_buffer_get_free, ring_buffer_get_size,
      ring_buffer_get_item_size, ring_buffer_is_full, ring_buffer_is_empty,
      ring_buffer_get_name, h]

/-- Witness for C8: the amended statement evaluated on the concrete
never-constructed instance. -/
theorem C8_witness :
    ring_buffer_get_taken (some uninitBuf) = 0 ∧
      ring_buffer_get_name (some uninitBuf) = none := by
  obtain ⟨h1, _, _, _, _, _, h7⟩ := (C8_amended_accessors uninitBuf).1 rfl
  exact ⟨h1, h7⟩

/-- C6 amended: `ring_buffer_init` called with a non-NULL `*p_ring_buffer`
(an already-constructed instance) fails with `eRING_BUFFER_ERROR_INIT` and
leaves the instance untouched; `ring_buffer_init_static`, however, performs
no already-constructed check: with valid arguments it unconditionally
re-setups the instance and returns OK. -/
theorem C6_amended_construction :
    (∀ (b : RingBuffer) (size : Nat) (p_attr : Option RingBufferAttr)
        (mem : Option (Nat → Nat)) (iok : Bool),
        ring_buffer_init (some b) size p_attr mem iok =
          (eRING_BUFFER_ERROR_INIT, some b)) ∧
    (∀ (b : RingBuffer) (size : Nat) (attr : RingBufferAttr) (f : Nat → Nat),
        attr.p_mem = some f →
        (ring_buffer_init_static (some b) size (some attr)).1 = eRING_BUFFER_OK ∧
        (ring_buffer_init_static (some b) size (some attr)).2 =
          some { b with
                 size_of_buffer := size, head := 0, tail := 0, count := 0,
                 name := attr.name, size_of_item := attr.item_size,
                 override := attr.override, p_data := f, is_init := true }) := by
  constructor
  · intro b size p_attr mem iok
    rfl
  · intro b size attr f hf
    simp [ring_buffer_init_static, hf]

/-- Witness for C6: the amended statement at concrete instances. -/
theorem C6_witness :
    ring_buffer_init (some busyBuf) 2 none none true =
      (eRING_BUFFER_ERROR_INIT, some busyBuf) ∧
    (ring_buffer_init_static (some busyBuf) 2 (some staticAttr)).1 =
      eRING_BUFFER_OK :=
  ⟨C6_amended_construction.1 busyBuf 2 none none true,
   (C6_amended_construction.2 busyBuf 2 staticAttr (fun _ => 9) rfl).1⟩

/-- One API operation preserves the data-model invariants as well as
`is_init` and the configured capacity, for `add_multi` requests within the
capacity. -/
theorem bufStep_preserves (b : RingBuffer) (op : BufOp)
    (hi : b.is_init = true) (hsz : b.size_of_buffer < U32)
    (hinv : BufInv b) (hop : BufOpOK b.size_of_buffer op) :
    BufInv (bufStep b op) ∧ (bufStep b op).is_init = true ∧
      (bufStep b op).size_of_buffer = b.size_of_buffer := by
  obtain ⟨hc, hh, ht⟩ := hinv
  cases op with
  | op_add p =>
      simp only [bufStep, ring_buffer_add, hi, if_true]
      by_cases hfull : b.size_of_buffer = b.count
      · rw [if_pos hfull]
        by_cases hov : b.override = true
        · rw [if_pos hov]
          refine ⟨⟨?_, ?_, ?_⟩, hi, rfl⟩
          · show ring_buffer_incr_count b 1 ≤ b.size_of_buffer
            unfold ring_buffer_incr_count
            rw [if_pos hov]
            dsimp only
            split <;> omega
          · show ring_buffer_increment_index b.head b.size_of_buffer 1 <
                b.size_of_buffer
            exact increment_index_lt hh (by omega) hsz
          · show ring_buffer_increment_index b.tail b.size_of_buffer 1 <
                b.size_of_buffer
            exact increment_index_lt ht (by omega) hsz
        · rw [if_neg hov]
          exact ⟨⟨hc, hh, ht⟩, hi, rfl⟩
      · rw [if_neg hfull]
        refine ⟨⟨?_, ?_, ht⟩, hi, rfl⟩
        · show ring_buffer_incr_count b 1 ≤ b.size_of_buffer
          unfold ring_buffer_incr_count
          split
          · dsimp only
            split <;> omega
          · omega
        · show ring_buffer_increment_index b.head b.size_of_buffer 1 <
              b.size_of_buffer
          exact increment_index_lt hh (by omega) hsz
  | op_add_multi p n =>
      replace hop : n ≤ b.size_of_buffer := hop
      simp only [bufStep, ring_buffer_add_multi, hi, if_true]
      have hfree : ring_buffer_get_free (some b) = b.size_of_buffer - b.count := by
        simp [ring_buffer_get_free, ring_buffer_get_size, ring_buffer_get_taken, hi]
      by_cases hsp : n ≤ ring_buffer_get_free (some b)
      · rw [if_pos hsp]
        rw [hfree] at hsp
        refine ⟨⟨?_, ?_, ht⟩, hi, rfl⟩
        · show ring_buffer_incr_count b n ≤ b.size_of_buffer
          unfold ring_buffer_incr_count
          split
          · dsimp only
            split <;> omega
          · omega
        · show ring_buffer_increment_index b.head b.size_of_buffer n <
              b.size_of_buffer
          exact increment_index_lt hh hop hsz
      · rw [if_neg hsp]
        by_cases hov : b.override = true
        · rw [if_pos hov]
          refine ⟨⟨?_, ?_, ?_⟩, hi, rfl⟩
          · show ring_buffer_incr_count b n ≤ b.size_of_buffer
            unfold ring_buffer_incr_count
            rw [if_pos hov]
            dsimp only
            split <;> omega
          · show ring_buffer_increment_index b.head b.size_of_buffer n <
                b.size_of_buffer
            exact increment_index_lt hh hop hsz
          · show ring_buffer_increment_index b.tail b.size_of_buffer n <
                b.size_of_buffer
            exact increment_index_lt ht hop hsz
        · rw [if_neg hov]
          exact ⟨⟨hc, hh, ht⟩, hi, rfl⟩
  | op_get =>
      simp only [bufStep, ring_buffer_get, hi, if_true]
      by_cases hz : b.count = 0
      · rw [if_pos hz]
        exact ⟨⟨hc, hh, ht⟩, hi, rfl⟩
      · rw [if_neg hz]
        refine ⟨⟨?_, ?_, ?_⟩, hi, rfl⟩
        · show b.count - 1 ≤ b.size_of_buffer
          omega
        · show b.head < b.size_of_buffer
          exact hh
        · show ring_buffer_increment_index b.tail b.size_of_buffer 1 <
              b.size_of_buffer
          exact increment_index_lt ht (by omega) hsz
  | op_get_multi n =>
      simp only [bufStep, ring_buffer_get_multi, hi, if_true]
      have htk : ring_buffer_get_taken (some b) = b.count := by
        simp [ring_buffer_get_taken, hi]
      by_cases hz : b.count = 0
      · rw [if_pos hz]
        exact ⟨⟨hc, hh, ht⟩, hi, rfl⟩
      · rw [if_neg hz]
        by_cases hn : n ≤ ring_buffer_get_taken (some b)
        · rw [if_pos hn]
          rw [htk] at hn
          refine ⟨⟨?_, ?_, ?_⟩, hi, rfl⟩
          · show b.count - n ≤ b.size_of_buffer
            omega
          · show b.head < b.size_of_buffer
            exact hh
          · show ring_buffer_increment_index b.tail b.size_of_buffer n <
                b.size_of_buffer
            exact increment_index_lt ht (by omega) hsz
        · rw [if_neg hn]
          exact ⟨⟨hc, hh, ht⟩, hi, rfl⟩
  | op_reset =>
      simp only [bufStep, ring_buffer_reset, hi, if_true]
      refine ⟨⟨?_, ?_, ?_⟩, rfl, rfl⟩
      · show (0:Nat) ≤ b.size_of_buffer
        omega
      · show (0:Nat) < b.size_of_buffer
        omega
      · show (0:Nat) < b.size_of_buffer
        omega

/-- C2: from any constructed buffer satisfying the data-model invariants
(a state `ring_buffer_init` establishes), every sequence of add, add_multi,
get, get_multi and reset operations -- with `add_multi` requests of at most
the capacity, as the claim stipulates -- keeps `count` in `[0, capacity]`
and `head`, `tail` in `[0, capacity)`.  Every prefix of a conforming
sequence is itself conforming, so the invariants hold after every
intermediate operation as well. -/
theorem C2_invariants_preserved (b : RingBuffer) (ops : List BufOp)
    (hi : b.is_init = true) (hsz : b.size_of_buffer < U32)
    (hinv : BufInv b) (hops : BufOpsOK b.size_of_buffer ops) :
    BufInv (runOps b ops) := by
  induction ops generalizing b with
  | nil => exact hinv
  | cons op rest ih =>
      obtain ⟨hop, hrest⟩ := hops
      obtain ⟨h1, h2, h3⟩ := bufStep_preserves b op hi hsz hinv hop
      exact ih (bufStep b op) h2 (h3 ▸ hsz) h1 (by rw [h3]; exact hrest)

/-- Witness for C2: a concrete capacity-2 buffer pushed through one
operation of each kind. -/
theorem C2_witness :
    BufInv (mkBuf 2 1 false) ∧
      BufOpsOK 2 [BufOp.op_add (fun _ => 5), BufOp.op_add_multi (fun _ => 6) 1,
        BufOp.op_get, BufOp.op_get_multi 1, BufOp.op_reset] ∧
      BufInv (runOps (mkBuf 2 1 false)
        [BufOp.op_add (fun _ => 5), BufOp.op_add_multi (fun _ => 6) 1,
         BufOp.op_get, BufOp.op_get_multi 1, BufOp.op_reset]) := by
  refine ⟨⟨by decide, by decide, by decide⟩,
    ⟨trivial, (by decide : (1:Nat) ≤ 2), trivial, trivial, trivial, trivial⟩, ?_⟩
  exact C2_invariants_preserved (mkBuf 2 1 false) _ rfl (by decide)
    ⟨by decide, by decide, by decide⟩
    ⟨trivial, (by decide : (1:Nat) ≤ 2), trivial, trivial, trivial, trivial⟩


/-- For capacities below 2^31, `ring_buffer_check_index` accepts every index
in `[-size, size)`. -/
theorem check_index_true_of_range {idx : Int} {size : Nat}
    (hsize : size < 2147483648) (hlo : -(size : Int) ≤ idx)
    (hhi : idx < (size : Int)) :
    ring_buffer_check_index idx size = true := by
  unfold ring_buffer_check_index
  simp only [Bool.or_eq_true, Bool.and_eq_true, decide_eq_true_eq]
  rcases le_or_lt 0 idx with h | h
  · left
    refine ⟨h, ?_⟩
    unfold int32OfUint32
    rw [if_pos hsize]
    exact hhi
  · right
    exact ⟨h, by omega⟩

/-- For capacities below 2^31 and an in-range tail, resolution of an index
in `[-size, size)` lands in `[0, size)`. -/
theorem parse_index_lt {idx : Int} {tail size : Nat}
    (hsize : size < 2147483648) (htail : tail < size)
    (hlo : -(size : Int) ≤ idx) (hhi : idx < (size : Int)) :
    ring_buffer_parse_index idx tail size < size := by
  unfold ring_buffer_parse_index
  dsimp only
  rcases le_or_lt 0 idx with h | h
  · rw [if_pos h]
    have h2 : idx.toNat < size := by omega
    rw [wrap_index_eq_of_lt h2]
    exact h2
  · rw [if_neg (by omega)]
    have hn : ((idx % (4294967296 : Int)).toNat : Int) = idx + 4294967296 := by
      omega
    have hb : ((size + (idx % (4294967296 : Int)).toNat) + tail) % 4294967296 <
        2 * size := by
      omega
    unfold ring_buffer_wrap_index
    simp only [U32]
    split <;> omega

/-- C10 amended: on any constructed buffer with capacity below 2^31 and
occupancy 0 (the occupancy premise is kept from the claim but never needed:
`get_by_index` does not consult it), reading any index in
`[-capacity, capacity)` returns OK -- in particular never
`eRING_BUFFER_EMPTY` -- leaves the whole instance untouched, and copies into
the caller's buffer the bytes currently stored at the slot resolved by
`ring_buffer_parse_index` (zero right after construction-with-allocation or
reset).  For capacities at or above 2^31 the cast `(int32_t)size` makes the
check reject every non-negative index; see the counterexample. -/
theorem C10_amended_get_by_index (b : RingBuffer) (out : Nat → Nat) (idx : Int)
    (hi : b.is_init = true) (hsize : b.size_of_buffer < 2147483648)
    (htail : b.tail < b.size_of_buffer)
    (hcs : b.size_of_buffer * b.size_of_item < U32)
    (hcount : b.count = 0)
    (hlo : -(b.size_of_buffer : Int) ≤ idx)
    (hhi : idx < (b.size_of_buffer : Int)) :
    (ring_buffer_get_by_index b out idx).1 = eRING_BUFFER_OK ∧
      (ring_buffer_get_by_index b out idx).1 ≠ eRING_BUFFER_EMPTY ∧
      (ring_buffer_get_by_index b out idx).2.1 = b ∧
      (∀ o, o < b.size_of_item →
        (ring_buffer_get_by_index b out idx).2.2 o =
          b.p_data (ring_buffer_parse_index idx b.tail b.size_of_buffer *
            b.size_of_item + o)) := by
  have hchk := check_index_true_of_range hsize hlo hhi
  have hparse := parse_index_lt hsize htail hlo hhi
  have hoff : ring_buffer_parse_index idx b.tail b.size_of_buffer *
      b.size_of_item < U32 :=
    lt_of_le_of_lt (Nat.mul_le_mul_right _ (Nat.le_of_lt hparse)) hcs
  have h1 : (ring_buffer_get_by_index b out idx).1 = eRING_BUFFER_OK := by
    simp only [ring_buffer_get_by_index, hi, hchk, if_true]
  refine ⟨h1, by rw [h1]; decide, ?_, ?_⟩
  · simp only [ring_buffer_get_by_index, hi, hchk, if_true]
  · intro o ho
    simp only [ring_buffer_get_by_index, hi, hchk, if_true]
    rw [ring_buffer_memcpy_apply, if_pos (by omega), Nat.mod_eq_of_lt hoff]
    congr 1

/-- Witness for C10: the amended statement at a concrete capacity-4 buffer
with two-byte items, read at index `-3`. -/
theorem C10_witness :
    (ring_buffer_get_by_index (mkBuf 4 2 false) zf (-3)).1 = eRING_BUFFER_OK ∧
      (ring_buffer_get_by_index (mkBuf 4 2 false) zf (-3)).2.1 = mkBuf 4 2 false := by
  have h := C10_amended_get_by_index (mkBuf 4 2 false) zf (-3) rfl (by decide)
    (by decide) (by decide) rfl (by decide) (by decide)
  exact ⟨h.1, h.2.2.1⟩

/-- Core behavior of `ring_buffer_get_by_index` on a constructed buffer with
capacity below 2^31: OK status, untouched state, and the item bytes read from
the slot resolved by `ring_buffer_parse_index`. -/
theorem get_by_index_read (b : RingBuffer) (out : Nat → Nat) (idx : Int)
    (hi : b.is_init = true) (hsize : b.size_of_buffer < 2147483648)
    (htail : b.tail < b.size_of_buffer)
    (hcs : b.size_of_buffer * b.size_of_item < U32)
    (hlo : -(b.size_of_buffer : Int) ≤ idx)
    (hhi : idx < (b.size_of_buffer : Int)) :
    (ring_buffer_get_by_index b out idx).1 = eRING_BUFFER_OK ∧
      (ring_buffer_get_by_index b out idx).2.1 = b ∧
      ∀ o, o < b.size_of_item →
        (ring_buffer_get_by_index b out idx).2.2 o =
          b.p_data (ring_buffer_parse_index idx b.tail b.size_of_buffer *
            b.size_of_item + o) := by
  have hchk := check_index_true_of_range hsize hlo hhi
  have hparse := parse_index_lt hsize htail hlo hhi
  have hoff : ring_buffer_parse_index idx b.tail b.size_of_buffer *
      b.size_of_item < U32 :=
    lt_of_le_of_lt (Nat.mul_le_mul_right _ (Nat.le_of_lt hparse)) hcs
  refine ⟨?_, ?_, ?_⟩
  · simp only [ring_buffer_get_by_index, hi, hchk, if_true]
  · simp only [ring_buffer_get_by_index, hi, hchk, if_true]
  · intro o ho
    simp only [ring_buffer_get_by_index, hi, hchk, if_true]
    rw [ring_buffer_memcpy_apply, if_pos (by omega), Nat.mod_eq_of_lt hoff]
    congr 1

/-- State after `k <= c` single adds into a fresh non-override buffer:
`tail = 0`, `count = k`, `head = k` (0 when the buffer just filled), and the
first `k*s` bytes of storage hold the added items in order. -/
theorem addSeq_state (c s : Nat) (src : Nat → Nat) (hc : 0 < c) (hs : 0 < s)
    (hcs : c * s < U32) :
    ∀ k, k ≤ c →
      (addSeq src s (mkBuf c s false) k).head = (if k = c then 0 else k) ∧
      (addSeq src s (mkBuf c s false) k).tail = 0 ∧
      (addSeq src s (mkBuf c s false) k).count = k ∧
      (addSeq src s (mkBuf c s false) k).size_of_buffer = c ∧
      (addSeq src s (mkBuf c s false) k).size_of_item = s ∧
      (addSeq src s (mkBuf c s false) k).override = false ∧
      (addSeq src s (mkBuf c s false) k).is_init = true ∧
      ∀ a, (addSeq src s (mkBuf c s false) k).p_data a =
        if a < k * s then src a else 0 := by
  have hcU : c < U32 := lt_of_le_of_lt (Nat.le_mul_of_pos_right c hs) hcs
  intro k
  induction k with
  | zero =>
      intro hk
      refine ⟨by rw [if_neg (by omega)]; rfl, rfl, rfl, rfl, rfl, rfl, rfl, ?_⟩
      intro a
      rw [if_neg (by omega)]
      rfl
  | succ k ih =>
      intro hk
      have hkc : k < c := by omega
      obtain ⟨ihh, iht, ihc, ihsz, ihsi, ihov, ihinit, ihdata⟩ := ih (by omega)
      have hks : k * s < U32 :=
        lt_trans (Nat.mul_lt_mul_of_lt_of_le hkc (le_refl s) hs) hcs
      set B := addSeq src s (mkBuf c s false) k with hB
      have hnotfull : ¬ B.size_of_buffer = B.count := by
        rw [ihsz, ihc]; omega
      have hadd : addSeq src s (mkBuf c s false) (k + 1) =
          ring_buffer_add_single_to_buf B (fun a => src (k * s + a)) := by
        show (ring_buffer_add B (fun a => src (k * s + a))).2 = _
        unfold ring_buffer_add
        rw [ihinit, if_pos rfl, if_neg hnotfull]
      rw [hadd]
      have hk2 : (if k = c then (0:Nat) else k) = k := if_neg (by omega)
      refine ⟨?_, ?_, ?_, ?_, ?_, ?_, ?_, ?_⟩
      · show ring_buffer_increment_index B.head B.size_of_buffer 1 = _
        rw [ihh, hk2, ihsz, increment_index_eq (by omega)]
        unfold ring_buffer_wrap_index
        split <;> split <;> omega
      · show B.tail = 0
        exact iht
      · show ring_buffer_incr_count B 1 = k + 1
        unfold ring_buffer_incr_count
        rw [ihov]
        simp [ihc]
      · show B.size_of_buffer = c
        exact ihsz
      · show B.size_of_item = s
        exact ihsi
      · show B.override = false
        exact ihov
      · show B.is_init = true
        exact ihinit
      · intro a
        show ring_buffer_memcpy B.p_data ((B.head * B.size_of_item) % U32)
            (fun x => src (k * s + x)) 0 B.size_of_item a = _
        rw [ihh, hk2, ihsi, Nat.mod_eq_of_lt hks, ring_buffer_memcpy_apply]
        have hmul : (k + 1) * s = k * s + s := by ring
        by_cases hwin : k * s ≤ a ∧ a < k * s + s
        · rw [if_pos hwin, if_pos (by omega)]
          congr 1
          omega
        · rw [if_neg hwin, ihdata a]
          by_cases ha : a < k * s
          · rw [if_pos ha, if_pos (by omega)]
          · rw [if_neg ha, if_neg (by omega)]

/-- Index 0 resolves to slot 0 regardless of the tail. -/
theorem parse_index_zero (tail c : Nat) (hc : 0 < c) :
    ring_buffer_parse_index 0 tail c = 0 := by
  unfold ring_buffer_parse_index ring_buffer_wrap_index
  dsimp only
  rw [if_pos (le_refl (0 : Int))]
  rw [if_neg (by omega)]
  rfl

/-- With `tail = 0`, index -1 resolves to the last slot. -/
theorem parse_index_neg_one (c : Nat) (hc : 0 < c) (hcU : c < U32) :
    ring_buffer_parse_index (-1) 0 c = c - 1 := by
  unfold ring_buffer_parse_index ring_buffer_wrap_index
  dsimp only
  rw [if_neg (show ¬ (0:Int) ≤ -1 by decide)]
  simp only [U32] at hcU ⊢
  split <;> omega

/-- With `tail = 0`, index `-capacity` resolves to slot 0. -/
theorem parse_index_neg_cap (c : Nat) (hc : 0 < c) (hc31 : c < 2147483648) :
    ring_buffer_parse_index (-(c : Int)) 0 c = 0 := by
  unfold ring_buffer_parse_index ring_buffer_wrap_index
  dsimp only
  rw [if_neg (show ¬ (0:Int) ≤ -(c : Int) by omega)]
  simp only [U32]
  split <;> omega

/-- C5 amended: after `n` adds of items `v0..v(n-1)` into a fresh empty
buffer (capacity below 2^31, a bound inherent to the `int32_t` index),
`get_by_index(0)` returns `v0` for every `1 <= n <= capacity`; and when
`n = capacity` (buffer full), `get_by_index(-1)` returns `v(n-1)` and
`get_by_index(-n)` returns `v0`.  For `n < capacity` the negative indices
resolve relative to `tail` into slots not yet written, so the claim as
stated fails there -- see the counterexample. -/
theorem C5_amended_inverse_index (c s : Nat) (src : Nat → Nat)
    (hc : 0 < c) (hs : 0 < s) (hc31 : c < 2147483648) (hcs : c * s < U32) :
    (∀ n, 0 < n → n ≤ c →
      (ring_buffer_get_by_index (addSeq src s (mkBuf c s false) n) zf 0).1 =
          eRING_BUFFER_OK ∧
        ∀ o, o < s →
          (ring_buffer_get_by_index (addSeq src s (mkBuf c s false) n) zf 0).2.2 o
            = src o) ∧
    ((ring_buffer_get_by_index (addSeq src s (mkBuf c s false) c) zf (-1)).1 =
        eRING_BUFFER_OK ∧
      ∀ o, o < s →
        (ring_buffer_get_by_index (addSeq src s (mkBuf c s false) c) zf (-1)).2.2 o
          = src ((c - 1) * s + o)) ∧
    ((ring_buffer_get_by_index (addSeq src s (mkBuf c s false) c) zf
        (-(c : Int))).1 = eRING_BUFFER_OK ∧
      ∀ o, o < s →
        (ring_buffer_get_by_index (addSeq src s (mkBuf c s false) c) zf
          (-(c : Int))).2.2 o = src o) := by
  have hcU : c < U32 := by simp only [U32]; omega
  have hmul : (c - 1) * s + s = c * s := by
    have h9 : c - 1 + 1 = c := by omega
    calc (c - 1) * s + s = ((c - 1) + 1) * s := by rw [Nat.add_mul, Nat.one_mul]
      _ = c * s := by rw [h9]
  refine ⟨?_, ?_, ?_⟩
  · intro n hn hnc
    obtain ⟨hh, ht, hcnt, hsz, hsi, hov, hinit, hdata⟩ :=
      addSeq_state c s src hc hs hcs n hnc
    obtain ⟨h1, h2, h3⟩ := get_by_index_read (addSeq src s (mkBuf c s false) n)
      zf 0 hinit (by rw [hsz]; exact hc31) (by rw [ht, hsz]; exact hc)
      (by rw [hsz, hsi]; exact hcs) (by rw [hsz]; omega)
      (by rw [hsz]; exact_mod_cast hc)
    refine ⟨h1, ?_⟩
    intro o ho
    rw [h3 o (by rw [hsi]; exact ho), ht, hsz, hsi, parse_index_zero 0 c hc,
      Nat.zero_mul, Nat.zero_add, hdata o,
      if_pos (lt_of_lt_of_le ho (Nat.le_mul_of_pos_left s hn))]
  · obtain ⟨hh, ht, hcnt, hsz, hsi, hov, hinit, hdata⟩ :=
      addSeq_state c s src hc hs hcs c (le_refl c)
    obtain ⟨h1, h2, h3⟩ := get_by_index_read (addSeq src s (mkBuf c s false) c)
      zf (-1) hinit (by rw [hsz]; exact hc31) (by rw [ht, hsz]; exact hc)
      (by rw [hsz, hsi]; exact hcs) (by rw [hsz]; omega) (by rw [hsz]; omega)
    refine ⟨h1, ?_⟩
    intro o ho
    rw [h3 o (by rw [hsi]; exact ho), ht, hsz, hsi, parse_index_neg_one c hc hcU,
      hdata, if_pos (by omega)]
  · obtain ⟨hh, ht, hcnt, hsz, hsi, hov, hinit, hdata⟩ :=
      addSeq_state c s src hc hs hcs c (le_refl c)
    obtain ⟨h1, h2, h3⟩ := get_by_index_read (addSeq src s (mkBuf c s false) c)
      zf (-(c : Int)) hinit (by rw [hsz]; exact hc31) (by rw [ht, hsz]; exact hc)
      (by rw [hsz, hsi]; exact hcs) (by rw [hsz]) (by rw [hsz]; omega)
    refine ⟨h1, ?_⟩
    intro o ho
    rw [h3 o (by rw [hsi]; exact ho), ht, hsz, hsi, parse_index_neg_cap c hc hc31,
      Nat.zero_mul, Nat.zero_add, hdata o,
      if_pos (lt_of_lt_of_le ho (Nat.le_mul_of_pos_left s hc))]

/-- Witness for C5: capacity 2 filled with items 10, 11; `get_by_index(-1)`
yields 11 and `get_by_index(0)` yields 10. -/
theorem C5_witness :
    (ring_buffer_get_by_index (addSeq (fun a => a + 10) 1 (mkBuf 2 1 false) 2)
        zf (-1)).2.2 0 = 11 ∧
      (ring_buffer_get_by_index (addSeq (fun a => a + 10) 1 (mkBuf 2 1 false) 2)
        zf 0).2.2 0 = 10 := by
  have h := C5_amended_inverse_index 2 1 (fun a => a + 10) (by decide) (by decide)
    (by decide) (by decide)
  refine ⟨?_, ?_⟩
  · have h2 := h.2.1.2 0 (by decide)
    simpa using h2
  · have h2 := (h.1 2 (by decide) (by decide)).2 0 (by decide)
    simpa using h2

/-- State left by one `add_multi` of `c + m` items (`0 < m < c`) on a fresh
override buffer: OK status, `head = tail = m`, `count = c`, and the storage
holding the last `c` items (first `m*s` bytes from the wrapped second copy,
the rest from the first copy). -/
theorem c4_state (c m s : Nat) (src : Nat → Nat) (hm : 0 < m) (hmc : m < c)
    (hs : 0 < s) (hcs : c * s < U32) (hcm : c + m < U32) :
    (ring_buffer_add_multi (mkBuf c s true) src (c + m)).1 = eRING_BUFFER_OK ∧
    (ring_buffer_add_multi (mkBuf c s true) src (c + m)).2.head = m ∧
    (ring_buffer_add_multi (mkBuf c s true) src (c + m)).2.tail = m ∧
    (ring_buffer_add_multi (mkBuf c s true) src (c + m)).2.count = c ∧
    (ring_buffer_add_multi (mkBuf c s true) src (c + m)).2.size_of_buffer = c ∧
    (ring_buffer_add_multi (mkBuf c s true) src (c + m)).2.size_of_item = s ∧
    (ring_buffer_add_multi (mkBuf c s true) src (c + m)).2.is_init = true ∧
    ∀ a, (ring_buffer_add_multi (mkBuf c s true) src (c + m)).2.p_data a =
      if a < m * s then src (s * c + a) else if a < s * c then src a else 0 := by
  have hsc : s * c < U32 := by rw [Nat.mul_comm]; exact hcs
  have hms : m * s < U32 := by
    calc m * s < c * s := (Nat.mul_lt_mul_right hs).mpr hmc
      _ < U32 := hcs
  have hsub : c + m - c = m := by omega
  have hred : ring_buffer_add_multi (mkBuf c s true) src (c + m) =
      (eRING_BUFFER_OK,
        { ring_buffer_add_many_to_buf (mkBuf c s true) src (c + m) with
          tail := ring_buffer_increment_index
            (ring_buffer_add_many_to_buf (mkBuf c s true) src (c + m)).tail
            (ring_buffer_add_many_to_buf (mkBuf c s true) src (c + m)).size_of_buffer
            (c + m) }) := by
    unfold ring_buffer_add_multi
    rw [if_pos (show (mkBuf c s true).is_init = true from rfl)]
    rw [if_neg (show ¬ c + m ≤ ring_buffer_get_free (some (mkBuf c s true)) from by
      show ¬ c + m ≤ c - 0
      omega)]
    rw [if_pos (show (mkBuf c s true).override = true from rfl)]
  rw [hred]
  refine ⟨rfl, ?_, ?_, ?_, rfl, rfl, rfl, ?_⟩
  · show ring_buffer_increment_index 0 c (c + m) = m
    rw [increment_index_eq (by omega)]
    rw [wrap_index_eq_sub (by omega) (by omega)]
    omega
  · show ring_buffer_increment_index 0 c (c + m) = m
    rw [increment_index_eq (by omega)]
    rw [wrap_index_eq_sub (by omega) (by omega)]
    omega
  · show ring_buffer_incr_count (mkBuf c s true) (c + m) = c
    unfold ring_buffer_incr_count
    simp only [mkBuf, Nat.sub_zero, if_true]
    rw [if_neg (by omega)]
  · intro a
    show (ring_buffer_add_many_to_buf (mkBuf c s true) src (c + m)).p_data a = _
    unfold ring_buffer_add_many_to_buf
    simp only [mkBuf, Nat.sub_zero, Nat.zero_mul, Nat.zero_mod]
    rw [if_pos (by omega)]
    rw [hsub, Nat.mod_eq_of_lt hsc, Nat.mod_eq_of_lt hms]
    rw [ring_buffer_memcpy_apply, ring_buffer_memcpy_apply]
    by_cases h1 : a < m * s
    · rw [if_pos ⟨Nat.zero_le a, by omega⟩, if_pos h1]
      congr 1
    · rw [if_neg (by omega), if_neg h1]
      by_cases h2 : a < s * c
      · rw [if_pos ⟨Nat.zero_le a, by omega⟩, if_pos h2]
        congr 1
        omega
      · rw [if_neg (by omega), if_neg h2]

/-- After `k <= c` FIFO gets from the post-`add_multi` state, `tail` has
advanced to `(m + k) mod c`, `count` is `c - k`, and the storage bytes are
untouched. -/
theorem c4_getSeq (c m s : Nat) (src : Nat → Nat) (hm : 0 < m) (hmc : m < c)
    (hs : 0 < s) (hcs : c * s < U32) (hcm : c + m < U32) :
    ∀ k, k ≤ c →
      (getSeq (ring_buffer_add_multi (mkBuf c s true) src (c + m)).2 k).tail =
        (m + k) % c ∧
      (getSeq (ring_buffer_add_multi (mkBuf c s true) src (c + m)).2 k).count =
        c - k ∧
      (getSeq (ring_buffer_add_multi (mkBuf c s true) src (c + m)).2 k).size_of_buffer
        = c ∧
      (getSeq (ring_buffer_add_multi (mkBuf c s true) src (c + m)).2 k).size_of_item
        = s ∧
      (getSeq (ring_buffer_add_multi (mkBuf c s true) src (c + m)).2 k).is_init =
        true ∧
      ∀ a, (getSeq (ring_buffer_add_multi (mkBuf c s true) src (c + m)).2 k).p_data a
        = if a < m * s then src (s * c + a) else if a < s * c then src a else 0 := by
  obtain ⟨hst, hh, ht, hcnt, hsz, hsi, hinit, hdata⟩ :=
    c4_state c m s src hm hmc hs hcs hcm
  have hc0 : 0 < c := by omega
  have hcU : c < U32 := by
    have h9 := Nat.le_mul_of_pos_right c hs
    omega
  intro k
  induction k with
  | zero =>
      intro hk
      refine ⟨?_, ?_, hsz, hsi, hinit, hdata⟩
      · show (ring_buffer_add_multi (mkBuf c s true) src (c + m)).2.tail = (m + 0) % c
        rw [ht, Nat.add_zero, Nat.mod_eq_of_lt hmc]
      · show (ring_buffer_add_multi (mkBuf c s true) src (c + m)).2.count = c - 0
        rw [hcnt]
        omega
  | succ k ih =>
      intro hk
      obtain ⟨iht, ihc, ihsz, ihsi, ihinit, ihdata⟩ := ih (by omega)
      have hkc : k < c := by omega
      have htlt : (m + k) % c < c := Nat.mod_lt _ hc0
      have hcne : ¬ (getSeq (ring_buffer_add_multi (mkBuf c s true) src (c + m)).2 k).count = 0 := by
        rw [ihc]
        omega
      have hget : getSeq (ring_buffer_add_multi (mkBuf c s true) src (c + m)).2 (k + 1) =
          (ring_buffer_get_single_from_buf
            (getSeq (ring_buffer_add_multi (mkBuf c s true) src (c + m)).2 k) zf).1 := by
        show (ring_buffer_get (getSeq (ring_buffer_add_multi (mkBuf c s true) src (c + m)).2 k) zf).2.1 = _
        unfold ring_buffer_get
        rw [ihinit, if_pos rfl, if_neg hcne]
      rw [hget]
      refine ⟨?_, ?_, ihsz, ihsi, ihinit, ihdata⟩
      · show ring_buffer_increment_index
            (getSeq (ring_buffer_add_multi (mkBuf c s true) src (c + m)).2 k).tail
            (getSeq (ring_buffer_add_multi (mkBuf c s true) src (c + m)).2 k).size_of_buffer
            1 = (m + (k + 1)) % c
        rw [iht, ihsz, increment_index_eq_mod htlt (by omega) (by omega),
          Nat.mod_add_mod]
        congr 1
      · show (getSeq (ring_buffer_add_multi (mkBuf c s true) src (c + m)).2 k).count - 1 =
            c - (k + 1)
        rw [ihc]
        omega

/-- C4 amended: with override on and capacity `c`, a single `add_multi` of
`c + m` items (`0 < m < c`, strictly: at `m = c` the single-subtraction wrap
leaves `tail = c`, outside the slot range -- see the counterexample) on a
fresh buffer returns OK, leaves `taken_count = c`, and the `c` subsequent
`get` calls return exactly the last `c` inserted items in order.  The bounds
`c*s < 2^32` and `c+m < 2^32` are representability of the `uint32_t` byte
size and request argument. -/
theorem C4_amended_override_law (c m s : Nat) (src : Nat → Nat)
    (hm : 0 < m) (hmc : m < c) (hs : 0 < s) (hcs : c * s < U32)
    (hcm : c + m < U32) :
    (ring_buffer_add_multi (mkBuf c s true) src (c + m)).1 = eRING_BUFFER_OK ∧
    (ring_buffer_add_multi (mkBuf c s true) src (c + m)).2.count = c ∧
    ∀ k, k < c →
      (ring_buffer_get
        (getSeq (ring_buffer_add_multi (mkBuf c s true) src (c + m)).2 k) zf).1 =
          eRING_BUFFER_OK ∧
      ∀ o, o < s →
        (ring_buffer_get
          (getSeq (ring_buffer_add_multi (mkBuf c s true) src (c + m)).2 k) zf).2.2 o
          = src ((m + k) * s + o) := by
  obtain ⟨hst, hh, ht, hcnt, hsz, hsi, hinit, hdata⟩ :=
    c4_state c m s src hm hmc hs hcs hcm
  refine ⟨hst, hcnt, ?_⟩
  intro k hk
  obtain ⟨ght, ghc, ghsz, ghsi, ghinit, ghdata⟩ :=
    c4_getSeq c m s src hm hmc hs hcs hcm k (Nat.le_of_lt hk)
  have hcne : ¬ (getSeq (ring_buffer_add_multi (mkBuf c s true) src (c + m)).2 k).count = 0 := by
    rw [ghc]
    omega
  have htlt : (m + k) % c < c := Nat.mod_lt _ (by omega)
  have hred : ring_buffer_get
      (getSeq (ring_buffer_add_multi (mkBuf c s true) src (c + m)).2 k) zf =
      (eRING_BUFFER_OK,
       (ring_buffer_get_single_from_buf
         (getSeq (ring_buffer_add_multi (mkBuf c s true) src (c + m)).2 k) zf).1,
       (ring_buffer_get_single_from_buf
         (getSeq (ring_buffer_add_multi (mkBuf c s true) src (c + m)).2 k) zf).2) := by
    unfold ring_buffer_get
    rw [ghinit, if_pos rfl, if_neg hcne]
  constructor
  · rw [hred]
  · intro o ho
    rw [hred]
    show ring_buffer_memcpy zf 0
        (getSeq (ring_buffer_add_multi (mkBuf c s true) src (c + m)).2 k).p_data
        (((getSeq (ring_buffer_add_multi (mkBuf c s true) src (c + m)).2 k).tail *
          (getSeq (ring_buffer_add_multi (mkBuf c s true) src (c + m)).2 k).size_of_item) % U32)
        (getSeq (ring_buffer_add_multi (mkBuf c s true) src (c + m)).2 k).size_of_item o
      = src ((m + k) * s + o)
    rw [ght, ghsi]
    have hofflt : (m + k) % c * s < U32 := by
      have h9 : (m + k) % c * s < c * s := (Nat.mul_lt_mul_right hs).mpr htlt
      omega
    rw [Nat.mod_eq_of_lt hofflt, ring_buffer_memcpy_apply,
      if_pos ⟨Nat.zero_le o, by omega⟩, ghdata]
    rcases Nat.lt_or_ge (m + k) c with hlt | hge
    · rw [Nat.mod_eq_of_lt hlt]
      have hge2 : ¬ ((m + k) * s + (o - 0) < m * s) := by
        have h9 : m * s ≤ (m + k) * s := Nat.mul_le_mul_right s (by omega)
        omega
      rw [if_neg hge2]
      have hlt2 : (m + k) * s + (o - 0) < s * c := by
        have h5 : ((m + k) + 1) * s ≤ c * s := Nat.mul_le_mul_right s (by omega)
        have h6 : ((m + k) + 1) * s = (m + k) * s + s := by ring
        have h7 : s * c = c * s := Nat.mul_comm s c
        omega
      rw [if_pos hlt2]
      congr 1
    · have hmod : (m + k) % c = m + k - c := by
        rw [Nat.mod_eq_sub_mod hge, Nat.mod_eq_of_lt (by omega)]
      rw [hmod]
      have hw : (m + k - c) * s + (o - 0) < m * s := by
        have h5 : (m + k - c + 1) * s ≤ m * s := Nat.mul_le_mul_right s (by omega)
        have h6 : (m + k - c + 1) * s = (m + k - c) * s + s := by ring
        omega
      rw [if_pos hw]
      congr 1
      have h7 : s * c + (m + k - c) * s = (m + k) * s := by
        rw [Nat.mul_comm s c, ← Nat.add_mul]
        congr 1
        omega
      omega

/-- Witness for C4: capacity 3, one extra item (`m = 1`), items 1,2,3,4; the
add reports OK with occupancy 3 and the first get returns item 2. -/
theorem C4_witness :
    (ring_buffer_add_multi (mkBuf 3 1 true) (fun a => a + 1) 4).1 =
        eRING_BUFFER_OK ∧
      (ring_buffer_add_multi (mkBuf 3 1 true) (fun a => a + 1) 4).2.count = 3 ∧
      (ring_buffer_get
        (getSeq (ring_buffer_add_multi (mkBuf 3 1 true) (fun a => a + 1) 4).2 0)
        zf).2.2 0 = 2 := by
  have h := C4_amended_override_law 3 1 1 (fun a => a + 1) (by decide) (by decide)
    (by decide) (by decide) (by decide)
  refine ⟨h.1, h.2.1, ?_⟩
  have h2 := (h.2.2 0 (by decide)).2 0 (by decide)
  simpa using h2

/-- mkBuf is exactly the state `ring_buffer_init` leaves behind on the
dynamic-allocation path with custom attributes: the scenario buffers used by
the claim theorems are reachable through construction. -/
theorem ring_buffer_init_mkBuf (cap s : Nat) (ovr : Bool) :
    ring_buffer_init none cap
      (some { name := none, p_mem := none, item_size := s, override := ovr })
      (some (fun _ => 0)) true = (eRING_BUFFER_OK, some (mkBuf cap s ovr)) := by
  unfold ring_buffer_init ring_buffer_custom_setup ring_buffer_clear_mem
  simp only [if_true, if_pos rfl]
  congr 1
  congr 1
  ext a
  · simp [mkBuf]
  · simp [mkBuf]
  · simp [mkBuf]
  · simp [mkBuf]
  · simp [mkBuf]
  · simp [mkBuf]
  · simp [mkBuf]
  · simp [mkBuf]
  · simp [mkBuf]
